import Mathlib

/-!
Verification development for the flight-dynamics and environment simulation
core of the rocket-man repository.

The definitions below are a shallow embedding of the Rust source:
* exact scalar arithmetic in the code (`f32`/`f64` additions, multiplications,
  comparisons, `min`, `max`, `clamp`) is embedded over `ℚ` where the relevant
  claims are arithmetic, and over `ℝ` where the code uses transcendental
  functions (`cos`, `sqrt`, `powf`, `exp`);
* `Result<T, E>` becomes `Except`, `Option<T>` becomes `Option`;
* machine floats are modelled as exact rationals/reals: all claims here are
  about algebraic structure of the computations, not rounding.

Sources embedded (paths relative to the repository root):
* `src/projectile/weather.rs`   — `find`, `get_temperature`, `get_pressure`
* `src/world/ground/mod.rs`     — `find_nearest_land_cover`
* `src/projectile/mod.rs`       — `update_engine_thrust`,
                                  `update_grounded_velocity`
* `src/projectile/control_surfaces.rs` — speed factor of
                                  `update_angular_projectile_velocity`
* `src/projectile/mass.rs`      — `update_fuel_mass_system` (external-tank
                                  transfer body)
* `src/projectile/drag.rs`      — `update_cross_section` overlay loop,
                                  shoelace accumulation, `drag_force`
* `src/projectile/lift.rs`      — `angle_of_attack`, `cl`, `lift_force`
* `src/projectile/util.rs`      — constants and helpers
-/

/-! ## Rational-arithmetic embeddings -/

/-- Rust `f32::clamp(lo, hi)`: `if self < lo { lo } else if self > hi { hi }
else { self }` (the source always calls it with `lo ≤ hi`). -/
def rust_clamp (x lo hi : ℚ) : ℚ :=
  if x < lo then lo else if x > hi then hi else x

/-- Rust `f32::EPSILON` = 2⁻²³, used as a denominator floor in `find`
(`src/projectile/weather.rs` line 130). -/
def EPS32 : ℚ := 1 / 2 ^ 23

/-- Result of Rust `slice::binary_search_by`: `Ok(index)` of a matching
element, or `Err(insertionPoint)`. -/
inductive SearchResult where
  | found : Nat → SearchResult
  | notFound : Nat → SearchResult
  deriving DecidableEq, Repr

/-- The loop of Rust `slice::binary_search_by` on a slice of rationals,
searching for `t`, with explicit fuel (the fuel is always sufficient when
started with `xs.length + 1`, since `right - left` strictly decreases). -/
def bsearch_aux (xs : List ℚ) (t : ℚ) : Nat → Nat → Nat → SearchResult
  | 0, left, _right => .notFound left
  | fuel + 1, left, right =>
    if left < right then
      if xs.getD (left + (right - left) / 2) 0 < t then
        bsearch_aux xs t fuel (left + (right - left) / 2 + 1) right
      else if t < xs.getD (left + (right - left) / 2) 0 then
        bsearch_aux xs t fuel left (left + (right - left) / 2)
      else .found (left + (right - left) / 2)
    else .notFound left

/-- Rust `xs.binary_search_by(|x| x.partial_cmp(&t).unwrap())` over a slice
with no NaNs (the embedding is over `ℚ`, where `partial_cmp` is total). -/
def binary_search (xs : List ℚ) (t : ℚ) : SearchResult :=
  bsearch_aux xs t (xs.length + 1) 0 xs.length

/-- Cell-index selection of `find` (`src/projectile/weather.rs` lines
113-121): `Ok(i) => i.min(n-2)`, `Err(i) => i.saturating_sub(1).min(n-2)`.
`Nat` subtraction is saturating, exactly like `usize::saturating_sub`. -/
def cell_index (axis : List ℚ) (x : ℚ) : Nat :=
  match binary_search axis x with
  | .found i => min i (axis.length - 2)
  | .notFound i => min (i - 1) (axis.length - 2)

/-- One axis of `find` (`src/projectile/weather.rs` lines 108-135): clamp the
query into the covered range, locate the cell, and compute the normalized
fractional offset with the `f32::EPSILON` denominator floor. Returns the cell
index together with the interpolation weight. -/
def axis_cell (axis : List ℚ) (x : ℚ) : Nat × ℚ :=
  let n := axis.length
  let xc := rust_clamp x (axis.getD 0 0) (axis.getD (n - 1) 0)
  let idx := cell_index axis xc
  let x0 := axis.getD idx 0
  let x1 := axis.getD (idx + 1) 0
  (idx, (xc - x0) / max |x1 - x0| EPS32)

/-- `find` from `src/projectile/weather.rs` lines 93-150: guard checks, then
bilinear interpolation over the located cell. The grid is row-major by
`(lat_idx, lon_idx)`: `idx(i, j) = i * n_lon + j`. -/
def find (lat lon : ℚ) (lats lons data : List ℚ) : Except Unit ℚ :=
  if lats.length < 2 ∨ lons.length < 2 then .error ()
  else if data.length ≠ lats.length * lons.length then .error ()
  else
    let lc := axis_cell lats lat
    let uc := axis_cell lons lon
    let t := lc.2
    let u := uc.2
    let f00 := data.getD (lc.1 * lons.length + uc.1) 0
    let f10 := data.getD ((lc.1 + 1) * lons.length + uc.1) 0
    let f01 := data.getD (lc.1 * lons.length + (uc.1 + 1)) 0
    let f11 := data.getD ((lc.1 + 1) * lons.length + (uc.1 + 1)) 0
    .ok ((f00 * (1 - t) + f10 * t) * (1 - u) + (f01 * (1 - t) + f11 * t) * u)

/-- The four corner values of the cell `find` interpolates in, in the order
`(f00, f10, f01, f11)` of `src/projectile/weather.rs` lines 139-142. -/
def cell_corners (lat lon : ℚ) (lats lons data : List ℚ) : ℚ × ℚ × ℚ × ℚ :=
  let lc := axis_cell lats lat
  let uc := axis_cell lons lon
  (data.getD (lc.1 * lons.length + uc.1) 0,
   data.getD ((lc.1 + 1) * lons.length + uc.1) 0,
   data.getD (lc.1 * lons.length + (uc.1 + 1)) 0,
   data.getD ((lc.1 + 1) * lons.length + (uc.1 + 1)) 0)

/-- Per-axis nearest-index selection of `find_nearest_land_cover`
(`src/world/ground/mod.rs` lines 597-626). -/
def nearest_index (axis : List ℚ) (x : ℚ) : Nat :=
  match binary_search axis x with
  | .found i => i
  | .notFound i =>
    if i = 0 then 0
    else if i ≥ axis.length then axis.length - 1
    else if |axis.getD (i - 1) 0 - x| < |axis.getD i 0 - x| then i - 1 else i

/-- `find_nearest_land_cover` from `src/world/ground/mod.rs` lines 577-632:
the categorical (land-cover) sampler. Note its guard accepts single-point
axes: it only rejects empty axes or a size mismatch. Land-cover categories
are embedded as integers. -/
def find_nearest_land_cover (lat lon : ℚ) (lats lons : List ℚ)
    (data : List ℤ) : Except Unit ℤ :=
  if lats.length = 0 ∨ lons.length = 0 ∨
      data.length ≠ lats.length * lons.length then .error ()
  else
    let latc := rust_clamp lat (lats.getD 0 0) (lats.getD (lats.length - 1) 0)
    let lonc := rust_clamp lon (lons.getD 0 0) (lons.getD (lons.length - 1) 0)
    let i := nearest_index lats latc
    let j := nearest_index lons lonc
    .ok (data.getD (i * lons.length + j) 0)

/-! ## Engine thrust ramp (`src/projectile/mod.rs` lines 149-170) -/

/-- The `elapsed` update of `update_engine_thrust`: while the raw throttle
(0–100 scale) exceeds the 0.05 threshold, `elapsed += dt` with no upper
clamp; otherwise it decays at twice the rate, floored at 0. -/
def engine_elapsed_update (throttle elapsed dt : ℚ) : ℚ :=
  if throttle > 0.05 then elapsed + dt else max (elapsed - dt * 2) 0

/-- `ramp_factor` of `update_engine_thrust`: `(elapsed / ramp_time).clamp(0, 1)`
when `ramp_time > 0`, else `1`. -/
def ramp_factor (elapsed ramp_time : ℚ) : ℚ :=
  if ramp_time > 0 then rust_clamp (elapsed / ramp_time) 0 1 else 1

/-- One tick of `update_engine_thrust` for a single engine: returns the new
`(elapsed, current_thrust)`. The raw throttle is on the 0–100 scale of the
`Throttle` component (the code computes the fraction as `throttle.0 / 100`). -/
def update_engine_thrust (max_thrust ramp_time elapsed throttle dt : ℚ) :
    ℚ × ℚ :=
  let e := engine_elapsed_update throttle elapsed dt
  (e, max_thrust * (throttle / 100) * ramp_factor e ramp_time)

/-! ## Airborne control effectiveness
(`src/projectile/control_surfaces.rs` line 36) -/

/-- The speed-dependent factor scaling the commanded roll/yaw/pitch rates in
`update_angular_projectile_velocity`:
`1.0 / (1.0 + speed * 0.01) + 0.01`. -/
def speed_factor (speed : ℚ) : ℚ := 1 / (1 + speed * 0.01) + 0.01

/-! ## Fuel transfer (`src/projectile/mass.rs` lines 132-150) -/

/-- The external-tank loop body of `update_fuel_mass_system` for one
external tank and its target internal tank: returns the new
`(external_mass, internal_mass)`. Inactive tanks and flow rates at or below
`0.00001` are skipped (`continue`). -/
def external_tank_transfer (active : Bool) (flow_rate dt : ℚ)
    (ext_mass int_mass int_max : ℚ) : ℚ × ℚ :=
  if !active || flow_rate ≤ 0.00001 then (ext_mass, int_mass)
  else
    let flow := flow_rate * dt
    let delta := min (min flow ext_mass) (int_max - int_mass)
    (ext_mass - delta, int_mass + delta)

/-! ## Cross-section area (`src/projectile/drag.rs` lines 164-187) -/

/-- A projected 2-D point, `[f32; 2]` in the source. -/
abbrev Point2 := ℚ × ℚ

/-- A contour, `Vec<[f32; 2]>` in the source (a projected triangle is one
contour of three points). -/
abbrev Contour := List Point2

/-- A shape: a list of contours (`Vec<Vec<[f32; 2]>>`). -/
abbrev Shape2 := List Contour

/-- The overlay result type `Vec<Vec<Vec<[f32; 2]>>>`: a list of shapes. -/
abbrev Shapes := List Shape2

/-- The signed shoelace sum of one contour (`src/projectile/drag.rs` lines
173-178): `Σᵢ xᵢ·yⱼ − xⱼ·yᵢ` with `j = (i+1) mod len`, then halved. -/
def contour_area (c : Contour) : ℚ :=
  ((List.range c.length).foldl
    (fun acc i =>
      acc + ((c.getD i (0, 0)).1 * (c.getD ((i + 1) % c.length) (0, 0)).2
        - (c.getD ((i + 1) % c.length) (0, 0)).1 * (c.getD i (0, 0)).2))
    0) * (1 / 2)

/-- The accumulation of contour areas over all shapes
(`src/projectile/drag.rs` lines 170-181). -/
def shapes_total_area (s : Shapes) : ℚ :=
  s.foldl (fun acc shape => shape.foldl (fun a c => a + contour_area c) acc) 0

/-- The unit-conversion constant `148.6884931` of
`src/projectile/drag.rs` line 182. -/
def UNIT_SCALE : ℚ := 148.6884931

/-- The overlay loop of `update_cross_section` (`src/projectile/drag.rs`
lines 164-169), parametric in the overlay operation supplied by the
`i_overlay` crate: `cross_section` starts empty, and the loop body
`cross_section = cross_section.overlay(&triangle, Union, EvenOdd); break;`
executes at most once because of the unconditional `break`. -/
def cross_section_shapes (overlay : Shapes → Contour → Shapes)
    (triangles : List Contour) : Shapes :=
  match triangles with
  | [] => []
  | t :: _ => overlay [] t

/-- The cross-section area computed by `update_cross_section` from the
projected triangles: shoelace total of the overlay result, scaled by
`UNIT_SCALE` (`src/projectile/drag.rs` lines 170-182). -/
def cross_section_area_calc (overlay : Shapes → Contour → Shapes)
    (triangles : List Contour) : ℚ :=
  shapes_total_area (cross_section_shapes overlay triangles) * UNIT_SCALE

/-- Modelled from the spec: the `i_overlay` crate (an external dependency,
not part of this repository) computes the union of the subject and clip
shapes with even-odd fill. The only call shape the code can reach is an
empty subject overlaid with a single triangle contour, whose union is that
triangle as a single shape; for disjoint inputs the union is the disjoint
collection of both. -/
def model_overlay : Shapes → Contour → Shapes :=
  fun subject clip => subject ++ [[clip]]

/-! ## Real-valued embeddings (transcendental code paths) -/

/-- `bevy::math::Vec3` (components embedded as exact reals). -/
structure V3 where
  x : ℝ
  y : ℝ
  z : ℝ

instance : Zero V3 := ⟨⟨0, 0, 0⟩⟩

instance : Add V3 := ⟨fun a b => ⟨a.x + b.x, a.y + b.y, a.z + b.z⟩⟩

instance : Neg V3 := ⟨fun a => ⟨-a.x, -a.y, -a.z⟩⟩

instance : Sub V3 := ⟨fun a b => ⟨a.x - b.x, a.y - b.y, a.z - b.z⟩⟩

instance : SMul ℝ V3 := ⟨fun c a => ⟨c * a.x, c * a.y, c * a.z⟩⟩

/-- `Vec3::dot`. -/
def V3.dot (a b : V3) : ℝ := a.x * b.x + a.y * b.y + a.z * b.z

/-- `Vec3::cross`. -/
def V3.cross (a b : V3) : V3 :=
  ⟨a.y * b.z - a.z * b.y, a.z * b.x - a.x * b.z, a.x * b.y - a.y * b.x⟩

/-- `Vec3::length` = `sqrt(self · self)`. -/
noncomputable def V3.length (a : V3) : ℝ := Real.sqrt (a.dot a)

/-- `Vec3::normalize` = `self / length`. -/
noncomputable def V3.normalize (a : V3) : V3 := (1 / a.length) • a

/-- `Vec3::project_onto(rhs)` = `rhs * (self · rhs / rhs · rhs)`. -/
noncomputable def V3.project_onto (a b : V3) : V3 := (a.dot b / b.dot b) • b

/-- Rust `f32::signum` restricted to non-NaN inputs: `-1` for negatives,
`1` otherwise (Rust returns `1.0` on `+0.0`). -/
noncomputable def rust_signum (x : ℝ) : ℝ := if x < 0 then -1 else 1

/-- Rust `f32::clamp` over the reals (same if-chain as `rust_clamp`). -/
noncomputable def rust_clampR (x lo hi : ℝ) : ℝ :=
  if x < lo then lo else if x > hi then hi else x

/-- `GRAVITY` from `src/projectile/util.rs`. -/
def GRAVITY : ℝ := 9.80907

/-- `GAS_CONSTANT` (specific gas constant of air) from
`src/projectile/util.rs`. -/
def GAS_CONSTANT : ℝ := 287.05

/-- `air_density` from `src/projectile/util.rs`. -/
noncomputable def air_density (air_pressure temperature : ℝ) : ℝ :=
  air_pressure / (GAS_CONSTANT * temperature)

/-- `speed_of_sound` from `src/projectile/util.rs`. -/
noncomputable def speed_of_sound (temperature : ℝ) : ℝ :=
  Real.sqrt (1.4 * GAS_CONSTANT * temperature)

/-- `celsius_to_kelvin` from `src/projectile/util.rs`. -/
def celsius_to_kelvin (temp_c : ℝ) : ℝ := temp_c + 273.15

/-! ## Lift (`src/projectile/lift.rs`) -/

/-- `CF104_WING_AREA` (m²). -/
def CF104_WING_AREA : ℝ := 18.22

/-- `CF104_CL0`. -/
def CF104_CL0 : ℝ := 0.8

/-- `CF104_CL_ALPHA`. -/
def CF104_CL_ALPHA : ℝ := 5.7

/-- `CF104_STALL_ALPHA` = `15.0_f32.to_radians()` = 15·π/180. -/
noncomputable def CF104_STALL_ALPHA : ℝ := 15 * (Real.pi / 180)

/-- `CF104_INCIDENT_OFFSET` = `-2.0_f32.to_radians()` = −2·π/180. -/
noncomputable def CF104_INCIDENT_OFFSET : ℝ := -(2 * (Real.pi / 180))

/-- `Vec3::angle_between` (glam): `acos` of the normalized dot product,
clamped into `[-1, 1]`. -/
noncomputable def angle_between (a b : V3) : ℝ :=
  Real.arccos (rust_clampR (a.dot b / (a.length * b.length)) (-1) 1)

/-- `angle_of_attack` from `src/projectile/lift.rs` lines 10-17. -/
noncomputable def angle_of_attack (forward velocity up : V3) : ℝ :=
  let rel_air := -velocity
  let vel_proj := rel_air - (rel_air.dot up) • up
  let angle := angle_between forward vel_proj
  angle * rust_signum ((forward.cross vel_proj).dot up) + CF104_INCIDENT_OFFSET

/-- The linear (below-stall) branch of `cl`
(`src/projectile/lift.rs` line 22). -/
noncomputable def cl_linear (alpha : ℝ) : ℝ :=
  CF104_CL0 + CF104_CL_ALPHA * alpha

/-- The cosine-taper (at/after-stall) branch of `cl`
(`src/projectile/lift.rs` line 24). -/
noncomputable def cl_stall_taper (alpha : ℝ) : ℝ :=
  CF104_CL0 + CF104_CL_ALPHA * CF104_STALL_ALPHA *
    Real.cos (alpha / CF104_STALL_ALPHA)

/-- `cl` from `src/projectile/lift.rs` lines 20-26. -/
noncomputable def cl (alpha : ℝ) : ℝ :=
  if |alpha| < CF104_STALL_ALPHA then cl_linear alpha else cl_stall_taper alpha

/-- `lift_force` from `src/projectile/lift.rs` lines 28-44. -/
noncomputable def lift_force (forward velocity up : V3) (rho : ℝ) : V3 :=
  let vel_proj := velocity.project_onto forward
  let v_mag := vel_proj.length
  if v_mag < 1e-3 then 0
  else
    let alpha := angle_of_attack forward velocity up
    let c := cl alpha
    let lift_mag := 0.5 * rho * v_mag * v_mag * CF104_WING_AREA * c
    lift_mag • up.normalize

/-! ## Drag force (`src/projectile/drag.rs` lines 198-231) -/

/-- `C_D_SUBSONIC`. -/
def C_D_SUBSONIC : ℝ := 0.02

/-- `C_D_TRANSONIC_SPIKE`. -/
def C_D_TRANSONIC_SPIKE : ℝ := 0.10

/-- `C_D_SUPERSONIC_BASE`. -/
def C_D_SUPERSONIC_BASE : ℝ := 0.04

/-- `drag_force` from `src/projectile/drag.rs` lines 201-231. -/
noncomputable def drag_force (cross_section_area : ℝ) (velocity : V3)
    (temperature air_pressure : ℝ) : V3 :=
  let rho := air_density air_pressure temperature
  let speed := velocity.length
  if speed < 1e-3 then 0
  else
    let velocity_dir := velocity.normalize
    let mach := speed / speed_of_sound temperature
    let cd :=
      if mach < 0.8 then C_D_SUBSONIC
      else if mach < 1.2 then
        C_D_SUBSONIC + ((mach - 0.8) / 0.4) * (C_D_TRANSONIC_SPIKE - C_D_SUBSONIC)
      else C_D_SUPERSONIC_BASE + 0.02 * (mach - 1.2)
    let dynamic_pressure := 0.5 * rho * speed * speed
    (-(dynamic_pressure * cd * cross_section_area)) • velocity_dir

/-! ## Atmosphere (`src/projectile/weather.rs` lines 152-197)

`get_temperature`/`get_pressure` call `find(...)` on the weather grid and
substitute a documented default when it fails; the embedding takes the
`find` result directly as an `Option` (`unwrap_or` becomes `Option.getD`). -/

/-- The standard troposphere lapse rate `LAPSE_RATE = 0.0065 K/m`. -/
def LAPSE_RATE : ℝ := 0.0065

/-- The isothermal-stratosphere temperature used at/above 11 km,
`216.65 K` (`src/projectile/weather.rs` line 167). -/
def STRATOSPHERE_TEMP : ℝ := 216.65

/-- `get_temperature` from `src/projectile/weather.rs` lines 152-169:
`temp_sample` is the result of the grid lookup (`None` means the lookup
failed and the default surface temperature of 30 °C is used). -/
noncomputable def get_temperature (temp_sample : Option ℝ) (altitude : ℝ) : ℝ :=
  let surface_temperature := celsius_to_kelvin (temp_sample.getD 30)
  if altitude ≤ 11000 then surface_temperature - 0.0065 * altitude
  else STRATOSPHERE_TEMP

/-- The 11-km anchor pressure of the stratospheric branch of `get_pressure`
(`src/projectile/weather.rs` lines 193-194). -/
noncomputable def pressure_at_11km (pressure_sample : Option ℝ) : ℝ :=
  (pressure_sample.getD 101325) *
    (1 - LAPSE_RATE * 11000 / 288.15) ^ (GRAVITY / (GAS_CONSTANT * LAPSE_RATE))

/-- `get_pressure` from `src/projectile/weather.rs` lines 171-197:
`pressure_sample` is the grid lookup result (default 101325 Pa), and
`temperature` is the caller-supplied local temperature (the callers pass
`get_temperature` evaluated at the same altitude). -/
noncomputable def get_pressure (pressure_sample : Option ℝ)
    (altitude temperature : ℝ) : ℝ :=
  let surface_pressure_pa := pressure_sample.getD 101325
  if altitude ≤ 11000 then
    surface_pressure_pa *
      (1 - LAPSE_RATE * altitude / temperature) ^
        (GRAVITY / (GAS_CONSTANT * LAPSE_RATE))
  else
    pressure_at_11km pressure_sample *
      Real.exp (-GRAVITY * (altitude - 11000) / (GAS_CONSTANT * temperature))

/-! ## Grounded integration step (`src/projectile/mod.rs` lines 314-452)

`update_grounded_velocity` processes one `Grounded` projectile per tick. The
transform-derived unit vectors (`forward = rotation * X`,
`up = rotation * Y`) and the engine's world thrust direction
(`rotation * engine.direction * X`) are taken as parameters, exactly as the
code uses them after deriving them from the quaternion; the weather-grid
lookups enter through the same `Option` parameters as in `get_temperature` /
`get_pressure` (the lat/lon inputs of `find` only select those samples). -/

/-- The per-tick parameters of `update_grounded_velocity` that are constant
during one invocation: timestep, aggregated mass, brake data, cached
cross-section area, transform axes, engine output, and weather samples. -/
structure GroundedParams where
  dt : ℝ
  mass : ℝ
  brake_mag : ℝ
  brake_on : Bool
  cross_section_area : ℝ
  forward : V3
  up : V3
  thrust_world_dir : V3
  current_thrust : ℝ
  temp_sample : Option ℝ
  pressure_sample : Option ℝ

/-- The mutable state of one grounded entity: world velocity, authoritative
double-precision `GlobalPosition`, render-transform translation, and the
presence of the `Grounded` tag. -/
structure GroundedState where
  velocity : V3
  position : V3
  translation : V3
  grounded : Bool

/-- `altitude` from `src/projectile/util.rs`: `y + 156`. -/
def altitude (y : ℝ) : ℝ := y + 156

/-- Lines 357-407 of `src/projectile/mod.rs`: the semi-implicit Euler
velocity update of the grounded branch — thrust + drag + brake + rolling
resistance + lift + gravity, divided by mass, integrated over `dt`. -/
noncomputable def grounded_integrated_velocity (p : GroundedParams)
    (s : GroundedState) : V3 :=
  let speed := s.velocity.length
  let velocity_dir := if speed > 0.001 then s.velocity.normalize else p.forward
  let alt := altitude s.position.y
  let temperature := get_temperature p.temp_sample alt
  let pressure := get_pressure p.pressure_sample alt temperature
  let thrust := p.current_thrust • p.thrust_world_dir
  let drag := drag_force p.cross_section_area s.velocity temperature pressure
  let brake := if p.brake_on then (-p.brake_mag) • velocity_dir else 0
  let rolling_resistance := (-(speed * 0.8)) • velocity_dir
  let lift := lift_force p.forward s.velocity p.up
    (air_density pressure temperature)
  let gravity : V3 := ⟨0, -(p.mass * GRAVITY), 0⟩
  let total_force := thrust + drag + brake + rolling_resistance + lift + gravity
  let acceleration := (1 / p.mass) • total_force
  s.velocity + p.dt • acceleration

/-- Lines 409-412 of `src/projectile/mod.rs`: after integration, project the
velocity onto the forward axis and keep only the world-vertical component
besides it (removes lateral slip). -/
noncomputable def grounded_projected_velocity (p : GroundedParams)
    (s : GroundedState) : V3 :=
  let v := grounded_integrated_velocity p s
  let fnorm := p.forward.normalize
  let forward_vel := (v.dot fnorm) • fnorm
  forward_vel + (v.dot ⟨0, 1, 0⟩) • (⟨0, 1, 0⟩ : V3)

/-- Lines 357-451 of `src/projectile/mod.rs`: the complete grounded step for
one entity — integrate, project, clamp vertical velocity to ≥ 0, and perform
the takeoff transition (`Grounded` tag removed, `GlobalPosition`
resynchronized from the render translation) exactly when the resulting
vertical velocity is positive. -/
noncomputable def grounded_step (p : GroundedParams) (s : GroundedState) :
    GroundedState :=
  let v := grounded_projected_velocity p s
  let vclamped : V3 := ⟨v.x, max v.y 0, v.z⟩
  if vclamped.y > 0 then
    ⟨vclamped, s.translation, s.translation, false⟩
  else
    ⟨vclamped, s.position, s.translation, true⟩

/-! # Theorems -/

/-! ## Component lemmas for `V3` -/

theorem V3.ext_components {a b : V3} (hx : a.x = b.x) (hy : a.y = b.y)
    (hz : a.z = b.z) : a = b := by
  cases a; cases b; simp_all

@[simp] theorem V3.mk_x (a b c : ℝ) : (V3.mk a b c).x = a := rfl

@[simp] theorem V3.mk_y (a b c : ℝ) : (V3.mk a b c).y = b := rfl

@[simp] theorem V3.mk_z (a b c : ℝ) : (V3.mk a b c).z = c := rfl

@[simp] theorem V3.add_x (a b : V3) : (a + b).x = a.x + b.x := rfl

@[simp] theorem V3.add_y (a b : V3) : (a + b).y = a.y + b.y := rfl

@[simp] theorem V3.add_z (a b : V3) : (a + b).z = a.z + b.z := rfl

@[simp] theorem V3.sub_x (a b : V3) : (a - b).x = a.x - b.x := rfl

@[simp] theorem V3.sub_y (a b : V3) : (a - b).y = a.y - b.y := rfl

@[simp] theorem V3.sub_z (a b : V3) : (a - b).z = a.z - b.z := rfl

@[simp] theorem V3.neg_x (a : V3) : (-a).x = -a.x := rfl

@[simp] theorem V3.neg_y (a : V3) : (-a).y = -a.y := rfl

@[simp] theorem V3.neg_z (a : V3) : (-a).z = -a.z := rfl

@[simp] theorem V3.smul_x (c : ℝ) (a : V3) : (c • a).x = c * a.x := rfl

@[simp] theorem V3.smul_y (c : ℝ) (a : V3) : (c • a).y = c * a.y := rfl

@[simp] theorem V3.smul_z (c : ℝ) (a : V3) : (c • a).z = c * a.z := rfl

@[simp] theorem V3.zero_x : (0 : V3).x = 0 := rfl

@[simp] theorem V3.zero_y : (0 : V3).y = 0 := rfl

@[simp] theorem V3.zero_z : (0 : V3).z = 0 := rfl

theorem V3.dot_def (a b : V3) :
    a.dot b = a.x * b.x + a.y * b.y + a.z * b.z := rfl

theorem V3.length_mk_x (vx : ℝ) (h : 0 ≤ vx) :
    V3.length ⟨vx, 0, 0⟩ = vx := by
  show Real.sqrt (vx * vx + 0 * 0 + 0 * 0) = vx
  rw [show vx * vx + 0 * 0 + 0 * 0 = vx * vx by ring]
  exact Real.sqrt_mul_self h

theorem V3.length_mk_y (vy : ℝ) (h : 0 ≤ vy) :
    V3.length ⟨0, vy, 0⟩ = vy := by
  show Real.sqrt (0 * 0 + vy * vy + 0 * 0) = vy
  rw [show (0 : ℝ) * 0 + vy * vy + 0 * 0 = vy * vy by ring]
  exact Real.sqrt_mul_self h

/-! ## Claim C4 — engine thrust ramp -/

/-- Claim C4 counterexample: starting from `elapsed = ramp_time = 1`
(inside `[0, ramp_time]`) with full throttle (raw 100) and `dt = 1/2`, the
update drives `elapsed` to `3/2 > ramp_time` — `elapsed` is not clamped to
`[0, ramp_time]` — and `current_thrust` then differs from
`max_thrust * throttle_fraction * (elapsed / ramp_time)` (which would
exceed `max_thrust`). -/
theorem update_engine_thrust_counterexample :
    ((0 : ℚ) ≤ 1 ∧ (1 : ℚ) ≤ 1) ∧
    ¬ (update_engine_thrust 44000 1 1 100 (1 / 2)).1 ≤ 1 ∧
    (update_engine_thrust 44000 1 1 100 (1 / 2)).2 ≠
      44000 * (100 / 100) * ((update_engine_thrust 44000 1 1 100 (1 / 2)).1 / 1) := by
  refine ⟨⟨by norm_num, le_rfl⟩, ?_, ?_⟩ <;>
    norm_num [update_engine_thrust, engine_elapsed_update, ramp_factor,
      rust_clamp]

/-- Claim C4 (amended): for `ramp_time > 0` and `elapsed, dt ≥ 0`, one tick
of `update_engine_thrust` keeps `elapsed` nonnegative (but does not clamp it
above: it grows by `dt` while raw throttle exceeds 0.05, else decays at twice
the rate floored at 0), sets `current_thrust =
max_thrust * (throttle/100) * clamp(elapsed/ramp_time, 0, 1)`, and — at full
throttle with positive `max_thrust` — `current_thrust` equals `max_thrust`
exactly when the updated `elapsed` has reached `ramp_time`. -/
theorem update_engine_thrust_spec (m rt e th dt : ℚ)
    (hrt : 0 < rt) (he : 0 ≤ e) (hdt : 0 ≤ dt) :
    0 ≤ (update_engine_thrust m rt e th dt).1 ∧
    (th > 0.05 → (update_engine_thrust m rt e th dt).1 = e + dt) ∧
    (¬ th > 0.05 →
      (update_engine_thrust m rt e th dt).1 = max (e - dt * 2) 0) ∧
    (update_engine_thrust m rt e th dt).2 =
      m * (th / 100) *
        rust_clamp ((update_engine_thrust m rt e th dt).1 / rt) 0 1 ∧
    (0 < m → th = 100 →
      ((update_engine_thrust m rt e th dt).2 = m ↔
        rt ≤ (update_engine_thrust m rt e th dt).1)) := by
  have h1 : (update_engine_thrust m rt e th dt).1 =
      engine_elapsed_update th e dt := rfl
  have hE0 : 0 ≤ engine_elapsed_update th e dt := by
    unfold engine_elapsed_update
    split
    · linarith
    · exact le_max_right _ _
  have h2 : (update_engine_thrust m rt e th dt).2 =
      m * (th / 100) *
        rust_clamp (engine_elapsed_update th e dt / rt) 0 1 := by
    show m * (th / 100) * ramp_factor (engine_elapsed_update th e dt) rt = _
    rw [ramp_factor, if_pos hrt]
  refine ⟨h1 ▸ hE0, ?_, ?_, by rw [h2, h1], ?_⟩
  · intro hth
    rw [h1, engine_elapsed_update, if_pos hth]
  · intro hth
    rw [h1, engine_elapsed_update, if_neg hth]
  · intro hm hth
    subst hth
    rw [h2, h1]
    set E := engine_elapsed_update 100 e dt with hEdef
    have hq0 : 0 ≤ E / rt := div_nonneg hE0 hrt.le
    rw [rust_clamp, if_neg (not_lt.2 hq0)]
    by_cases hgt : E / rt > 1
    · rw [if_pos hgt]
      have : rt < E := (one_lt_div hrt).1 hgt
      constructor
      · intro _; linarith
      · intro _; norm_num
    · rw [if_neg hgt]
      have hle : E ≤ rt := (div_le_one hrt).1 (not_lt.1 hgt)
      have hrtne : rt ≠ 0 := ne_of_gt hrt
      have hmne : m ≠ 0 := ne_of_gt hm
      constructor
      · intro hEq
        have h100 : m * (100 / 100) * (E / rt) = m * (E / rt) := by ring
        rw [h100] at hEq
        have hq1 : E / rt = 1 :=
          mul_left_cancel₀ hmne (hEq.trans (mul_one m).symm)
        have hErt : E = rt := by
          field_simp [hrtne] at hq1
          linarith
        linarith
      · intro hge
        have hErt : E = rt := le_antisymm hle hge
        rw [hErt, div_self hrtne]
        norm_num

/-- Witness for `update_engine_thrust_spec`: full throttle from a cold start
with `dt = ramp_time = 5` reaches exactly `max_thrust`. -/
theorem update_engine_thrust_spec_witness :
    (update_engine_thrust 44000 5 0 100 5).2 = 44000 := by
  have h := update_engine_thrust_spec 44000 5 0 100 5 (by norm_num) le_rfl
    (by norm_num)
  have h1 : (update_engine_thrust 44000 5 0 100 5).1 = 5 := by
    norm_num [update_engine_thrust, engine_elapsed_update]
  exact (h.2.2.2.2 (by norm_num) rfl).mpr (by rw [h1])

/-! ## Claim C5 — airborne control-effectiveness factor -/

/-- Claim C5 counterexample: the factor is not monotonically non-decreasing:
at airspeeds `0 ≤ 100`, `speed_factor 0 = 1.01 > 0.51 = speed_factor 100`. -/
theorem speed_factor_counterexample :
    (0 : ℚ) ≤ 100 ∧ ¬ speed_factor 0 ≤ speed_factor 100 := by
  constructor
  · norm_num
  · norm_num [speed_factor]

/-- Claim C5 (amended): the airborne control-effectiveness factor
`1/(1 + 0.01·speed) + 0.01` is monotonically non-increasing in airspeed; it
equals `1.01` at zero airspeed and stays within `(0.01, 1.01]` for all
nonnegative airspeeds — control authority decreases with speed (not the
reverse, and the factor never reaches 0 or 1 as endpoints). -/
theorem speed_factor_spec (s1 s2 : ℚ) (h0 : 0 ≤ s1) (h12 : s1 ≤ s2) :
    speed_factor s2 ≤ speed_factor s1 ∧
    0.01 < speed_factor s2 ∧ speed_factor s2 ≤ 1.01 ∧
    speed_factor 0 = 1.01 := by
  have h0' : (0 : ℚ) ≤ s2 := h0.trans h12
  have hd1 : (0 : ℚ) < 1 + s1 * 0.01 := by nlinarith
  have hd2 : (0 : ℚ) < 1 + s2 * 0.01 := by nlinarith
  refine ⟨?_, ?_, ?_, by norm_num [speed_factor]⟩
  · have hmono : 1 / (1 + s2 * 0.01) ≤ 1 / (1 + s1 * 0.01) :=
      one_div_le_one_div_of_le hd1 (by nlinarith)
    unfold speed_factor
    linarith
  · have : 0 < 1 / (1 + s2 * 0.01) := by positivity
    unfold speed_factor
    linarith
  · have : 1 / (1 + s2 * 0.01) ≤ 1 := by
      rw [div_le_one hd2]
      nlinarith
    unfold speed_factor
    linarith

/-- Witness for `speed_factor_spec` at airspeeds 0 and 100. -/
theorem speed_factor_spec_witness : speed_factor 100 ≤ speed_factor 0 :=
  (speed_factor_spec 0 100 le_rfl (by norm_num)).1

/-! ## Claim C6 — fuel transfer -/

/-- Claim C6: one tick of the external-tank transfer conserves total mass,
leaves neither tank negative, and never fills the internal tank beyond its
capacity (assuming the tick starts from a valid state: nonnegative contents,
internal content within capacity, nonnegative timestep). -/
theorem external_tank_transfer_spec (active : Bool) (fr dt em im imax : ℚ)
    (hdt : 0 ≤ dt) (hem : 0 ≤ em) (him : 0 ≤ im) (hcap : im ≤ imax) :
    (external_tank_transfer active fr dt em im imax).1 +
      (external_tank_transfer active fr dt em im imax).2 = em + im ∧
    0 ≤ (external_tank_transfer active fr dt em im imax).1 ∧
    0 ≤ (external_tank_transfer active fr dt em im imax).2 ∧
    (external_tank_transfer active fr dt em im imax).2 ≤ imax := by
  unfold external_tank_transfer
  by_cases hguard : (!active || decide (fr ≤ 0.00001)) = true
  · rw [if_pos hguard]
    exact ⟨rfl, hem, him, hcap⟩
  · rw [if_neg hguard]
    rw [Bool.or_eq_true, not_or] at hguard
    have hfr : 0.00001 < fr := not_le.1 (by simpa using hguard.2)
    have hflow : 0 ≤ fr * dt := mul_nonneg (by linarith) hdt
    have hδ0 : 0 ≤ min (min (fr * dt) em) (imax - im) :=
      le_min (le_min hflow hem) (by linarith)
    have hδem : min (min (fr * dt) em) (imax - im) ≤ em :=
      (min_le_left _ _).trans (min_le_right _ _)
    have hδroom : min (min (fr * dt) em) (imax - im) ≤ imax - im :=
      min_le_right _ _
    show em - min (min (fr * dt) em) (imax - im) +
        (im + min (min (fr * dt) em) (imax - im)) = em + im ∧
      0 ≤ em - min (min (fr * dt) em) (imax - im) ∧
      0 ≤ im + min (min (fr * dt) em) (imax - im) ∧
      im + min (min (fr * dt) em) (imax - im) ≤ imax
    exact ⟨by ring, by linarith, by linarith, by linarith⟩

/-- Witness for `external_tank_transfer_spec`: flow 1 from a tank holding 3
into a tank holding 8 of 10 capacity conserves the total of 11. -/
theorem external_tank_transfer_spec_witness :
    (external_tank_transfer true 1 1 3 8 10).1 +
      (external_tank_transfer true 1 1 3 8 10).2 = 3 + 8 :=
  (external_tank_transfer_spec true 1 1 3 8 10 (by norm_num) (by norm_num)
    (by norm_num) (by norm_num)).1

/-! ## Claim C1 — cross-section union loop -/

/-- Claim C1: the overlay loop of `update_cross_section` exits after its
first iteration (unconditional `break`), so for any overlay operation and
any triangle set with two or more triangles, every triangle after the first
is ignored; concretely with the spec's union semantics, two disjoint
right triangles of area ½ each yield only `UNIT_SCALE · ½` instead of the
union area `UNIT_SCALE · 1` that processing both shapes would give. -/
theorem cross_section_first_triangle_only :
    (∀ (overlay : Shapes → Contour → Shapes) (t1 t2 : Contour)
        (rest : List Contour),
      cross_section_area_calc overlay (t1 :: t2 :: rest) =
        cross_section_area_calc overlay [t1]) ∧
    cross_section_area_calc model_overlay
        [[(0, 0), (1, 0), (0, 1)], [(2, 0), (3, 0), (2, 1)]] =
      UNIT_SCALE * (1 / 2) ∧
    shapes_total_area
        (model_overlay (model_overlay [] [(0, 0), (1, 0), (0, 1)])
          [(2, 0), (3, 0), (2, 1)]) * UNIT_SCALE =
      UNIT_SCALE * 1 := by
  refine ⟨fun overlay t1 t2 rest => rfl, ?_, ?_⟩ <;>
    norm_num [cross_section_area_calc, cross_section_shapes, model_overlay,
      shapes_total_area, contour_area, UNIT_SCALE, List.range_succ,
      List.getD_cons_zero, List.getD_cons_succ]

/-! ## Claim C2 — lift-coefficient continuity at stall -/

/-- Claim C2 counterexample: at `alpha = ±CF104_STALL_ALPHA` the linear
branch and the cosine-taper branch of `cl` produce different values (the
taper evaluates `cos(±1) = cos 1 ≠ 1`). -/
theorem cl_branches_counterexample :
    cl_linear CF104_STALL_ALPHA ≠ cl_stall_taper CF104_STALL_ALPHA ∧
    cl_linear (-CF104_STALL_ALPHA) ≠ cl_stall_taper (-CF104_STALL_ALPHA) := by
  have hs : (0 : ℝ) < CF104_STALL_ALPHA := by
    unfold CF104_STALL_ALPHA
    positivity
  have hsne : CF104_STALL_ALPHA ≠ 0 := ne_of_gt hs
  have hdiv : CF104_STALL_ALPHA / CF104_STALL_ALPHA = 1 := div_self hsne
  have hneg : -CF104_STALL_ALPHA / CF104_STALL_ALPHA = -1 := by
    rw [neg_div, hdiv]
  have hcos1 : Real.cos 1 < 1 :=
    lt_of_le_of_lt Real.cos_one_le (by norm_num)
  have hcospos : 0 < Real.cos 1 := Real.cos_one_pos
  have h57 : (0 : ℝ) < CF104_CL_ALPHA * CF104_STALL_ALPHA := by
    have : (0 : ℝ) < CF104_CL_ALPHA := by norm_num [CF104_CL_ALPHA]
    positivity
  constructor
  · unfold cl_linear cl_stall_taper
    rw [hdiv]
    intro h
    nlinarith
  · unfold cl_linear cl_stall_taper
    rw [hneg, Real.cos_neg]
    intro h
    nlinarith

/-- Claim C2 (amended): `cl` is discontinuous at the stall angle: at
`alpha = CF104_STALL_ALPHA` the function takes the cosine-taper branch,
whose value is strictly below the linear branch by exactly
`CF104_CL_ALPHA · CF104_STALL_ALPHA · (1 − cos 1)`; at
`alpha = −CF104_STALL_ALPHA` the taper value strictly exceeds the linear
one (the taper is referenced to `+stall` and is even in `alpha`). -/
theorem cl_discontinuous_at_stall :
    cl CF104_STALL_ALPHA = cl_stall_taper CF104_STALL_ALPHA ∧
    cl_stall_taper CF104_STALL_ALPHA < cl_linear CF104_STALL_ALPHA ∧
    cl_linear (-CF104_STALL_ALPHA) < cl_stall_taper (-CF104_STALL_ALPHA) ∧
    cl_linear CF104_STALL_ALPHA - cl_stall_taper CF104_STALL_ALPHA =
      CF104_CL_ALPHA * CF104_STALL_ALPHA * (1 - Real.cos 1) := by
  have hs : (0 : ℝ) < CF104_STALL_ALPHA := by
    unfold CF104_STALL_ALPHA
    positivity
  have hsne : CF104_STALL_ALPHA ≠ 0 := ne_of_gt hs
  have hdiv : CF104_STALL_ALPHA / CF104_STALL_ALPHA = 1 := div_self hsne
  have hneg : -CF104_STALL_ALPHA / CF104_STALL_ALPHA = -1 := by
    rw [neg_div, hdiv]
  have hcos1 : Real.cos 1 < 1 :=
    lt_of_le_of_lt Real.cos_one_le (by norm_num)
  have hcospos : 0 < Real.cos 1 := Real.cos_one_pos
  have h57 : (0 : ℝ) < CF104_CL_ALPHA * CF104_STALL_ALPHA := by
    have : (0 : ℝ) < CF104_CL_ALPHA := by norm_num [CF104_CL_ALPHA]
    positivity
  refine ⟨?_, ?_, ?_, ?_⟩
  · unfold cl
    rw [abs_of_pos hs, if_neg (lt_irrefl _)]
  · unfold cl_linear cl_stall_taper
    rw [hdiv]
    nlinarith
  · unfold cl_linear cl_stall_taper
    rw [hneg, Real.cos_neg]
    nlinarith
  · unfold cl_linear cl_stall_taper
    rw [hdiv]
    ring

/-! ## Claim C3 — tropopause continuity -/

/-- The default-sample temperature at exactly 11 km: the troposphere branch
of `get_temperature` gives `303.15 − 71.5 = 231.65 K`. -/
theorem get_temperature_default_11km : get_temperature none 11000 = 231.65 := by
  norm_num [get_temperature, celsius_to_kelvin]

/-- With the default samples, the troposphere branch of `get_pressure` at
11 km is strictly below the stratospheric anchor value: the barometric
factor uses the local temperature 231.65 K while the anchor hard-codes
288.15 K, so the bases of the power differ. -/
theorem pressure_default_gap :
    get_pressure none 11000 (get_temperature none 11000) <
      pressure_at_11km none := by
  rw [get_temperature_default_11km]
  unfold get_pressure pressure_at_11km
  rw [if_pos (by norm_num : (11000 : ℝ) ≤ 11000)]
  simp only [Option.getD_none]
  have hk : 0 < GRAVITY / (GAS_CONSTANT * LAPSE_RATE) := by
    norm_num [GRAVITY, GAS_CONSTANT, LAPSE_RATE]
  have hb1 : (0 : ℝ) ≤ 1 - LAPSE_RATE * 11000 / 231.65 := by
    norm_num [LAPSE_RATE]
  have hlt : (1 : ℝ) - LAPSE_RATE * 11000 / 231.65 <
      1 - LAPSE_RATE * 11000 / 288.15 := by
    norm_num [LAPSE_RATE]
  have hpow := Real.rpow_lt_rpow hb1 hlt hk
  have h101325 : (0 : ℝ) < 101325 := by norm_num
  exact mul_lt_mul_of_pos_left hpow h101325

/-- Claim C3 counterexample: with the documented default samples, the two
temperature branches disagree at 11 km (231.65 K vs 216.65 K — a 15 K jump,
far outside floating tolerance) and the two pressure branches disagree
there as well. -/
theorem tropopause_counterexample :
    get_temperature none 11000 = 231.65 ∧
    get_temperature none 11000 ≠ STRATOSPHERE_TEMP ∧
    get_pressure none 11000 (get_temperature none 11000) <
      pressure_at_11km none := by
  refine ⟨get_temperature_default_11km, ?_, pressure_default_gap⟩
  rw [get_temperature_default_11km]
  norm_num [STRATOSPHERE_TEMP]

/-- Claim C3 (amended): for a sampled surface temperature `t` (°C), the two
temperature branches agree at the 11 km boundary exactly when
`t = 15 °C` (288.15 K); with the documented default of 30 °C the troposphere
branch exceeds the stratosphere value by 15 K, and the pressure branches
also disagree at the boundary. -/
theorem tropopause_continuity_iff (t : ℝ) :
    (get_temperature (some t) 11000 = STRATOSPHERE_TEMP ↔ t = 15) ∧
    get_temperature none 11000 - STRATOSPHERE_TEMP = 15 ∧
    get_pressure none 11000 (get_temperature none 11000) ≠
      pressure_at_11km none := by
  refine ⟨?_, ?_, ne_of_lt pressure_default_gap⟩
  · unfold get_temperature STRATOSPHERE_TEMP celsius_to_kelvin
    rw [if_pos (by norm_num : (11000 : ℝ) ≤ 11000)]
    simp only [Option.getD_some]
    constructor
    · intro h; linarith
    · intro h; rw [h]; norm_num
  · rw [get_temperature_default_11km]
    norm_num [STRATOSPHERE_TEMP]

/-- Witness for `tropopause_continuity_iff`: at a sampled surface
temperature of exactly 15 °C the troposphere branch does reach 216.65 K at
the boundary. -/
theorem tropopause_continuity_iff_witness :
    get_temperature (some 15) 11000 = STRATOSPHERE_TEMP :=
  (tropopause_continuity_iff 15).1.mpr rfl

/-! ## Claims C7 and C9 — grounded step -/

theorem V3.zero_smul_vec (a : V3) : (0 : ℝ) • a = 0 := by
  apply V3.ext_components <;> simp

theorem drag_force_zero_area (v : V3) (temperature pressure : ℝ) :
    drag_force 0 v temperature pressure = 0 := by
  simp only [drag_force]
  split
  · rfl
  · rw [mul_zero, neg_zero]
    exact V3.zero_smul_vec _

theorem V3.normalize_unit_x : V3.normalize ⟨1, 0, 0⟩ = ⟨1, 0, 0⟩ := by
  unfold V3.normalize V3.length V3.dot
  apply V3.ext_components <;> simp

theorem V3.normalize_unit_y : V3.normalize ⟨0, 1, 0⟩ = ⟨0, 1, 0⟩ := by
  unfold V3.normalize V3.length V3.dot
  apply V3.ext_components <;> simp

theorem V3.normalize_mk_y (vy : ℝ) (h : 0 < vy) :
    V3.normalize ⟨0, vy, 0⟩ = ⟨0, 1, 0⟩ := by
  unfold V3.normalize
  rw [V3.length_mk_y vy h.le]
  apply V3.ext_components <;> simp
  exact inv_mul_cancel₀ (ne_of_gt h)

theorem lift_force_vertical (vy rho : ℝ) :
    lift_force ⟨1, 0, 0⟩ ⟨0, vy, 0⟩ ⟨0, 1, 0⟩ rho = 0 := by
  have hproj : (V3.mk 0 vy 0).project_onto ⟨1, 0, 0⟩ = 0 := by
    unfold V3.project_onto V3.dot
    apply V3.ext_components <;> simp
  have hlen0 : V3.length (0 : V3) = 0 := by
    unfold V3.length V3.dot
    simp [Real.sqrt_zero]
  simp only [lift_force, hproj, hlen0]
  rw [if_pos (by norm_num : (0 : ℝ) < 1e-3)]

theorem grounded_vertical_y (p : GroundedParams) (pos tr : V3) (g : Bool)
    (vy : ℝ)
    (hf : p.forward = ⟨1, 0, 0⟩) (hup : p.up = ⟨0, 1, 0⟩)
    (ha : p.cross_section_area = 0) (ht : p.current_thrust = 0)
    (hb : p.brake_on = false) (hvy : 0.001 < vy) :
    (grounded_projected_velocity p ⟨⟨0, vy, 0⟩, pos, tr, g⟩).y
      = vy - (0.8 * vy + p.mass * GRAVITY) * p.dt / p.mass := by
  have hvypos : (0 : ℝ) < vy := lt_trans (by norm_num) hvy
  have hlen : V3.length ⟨0, vy, 0⟩ = vy := V3.length_mk_y vy hvypos.le
  unfold grounded_projected_velocity grounded_integrated_velocity
  rw [hf, hup, ha, ht, hb]
  simp only [hlen, drag_force_zero_area, lift_force_vertical,
    V3.normalize_unit_x, if_pos hvy, V3.normalize_mk_y vy hvypos,
    Bool.false_eq_true, if_false]
  unfold V3.dot
  simp only [V3.mk_x, V3.mk_y, V3.mk_z, V3.add_x, V3.add_y, V3.add_z,
    V3.smul_x, V3.smul_y, V3.smul_z, V3.zero_x, V3.zero_y, V3.zero_z]
  ring

theorem lift_force_up_unit_x (f v : V3) (rho : ℝ) :
    (lift_force f v ⟨0, 1, 0⟩ rho).x = 0 := by
  simp only [lift_force]
  split
  · simp
  · simp [V3.normalize_unit_y]

/-- Claim C7: in the grounded step, whenever the post-integration
(projected) vertical velocity is positive, the `Grounded` tag is removed and
`GlobalPosition` is resynchronized to the render-transform translation
within that same tick; whenever it is not positive, the entity stays
grounded and `GlobalPosition` is untouched by this system. -/
theorem grounded_takeoff_transition (p : GroundedParams) (s : GroundedState) :
    (0 < (grounded_projected_velocity p s).y →
      (grounded_step p s).grounded = false ∧
      (grounded_step p s).position = s.translation) ∧
    ((grounded_projected_velocity p s).y ≤ 0 →
      (grounded_step p s).grounded = true ∧
      (grounded_step p s).position = s.position) := by
  simp only [grounded_step, V3.mk_y, gt_iff_lt, lt_max_iff, lt_irrefl,
    or_false]
  split_ifs with h
  · exact ⟨fun _ => ⟨rfl, rfl⟩, fun hle => absurd h (not_lt.2 hle)⟩
  · exact ⟨fun hy => absurd hy h, fun _ => ⟨rfl, rfl⟩⟩

/-- Witness for `grounded_takeoff_transition`: a grounded CF-104-like body
climbing at 10 m/s (level attitude, idle engine, brakes off) takes off in
one tick: the tag is dropped and the position is resynchronized. -/
theorem grounded_takeoff_transition_witness :
    (grounded_step
        ⟨1/100, 1000, 8000, false, 0, ⟨1, 0, 0⟩, ⟨0, 1, 0⟩, ⟨-1, 0, 0⟩, 0,
          none, none⟩
        ⟨⟨0, 10, 0⟩, ⟨0, 0, 0⟩, ⟨5, 6, 7⟩, true⟩).grounded = false ∧
    (grounded_step
        ⟨1/100, 1000, 8000, false, 0, ⟨1, 0, 0⟩, ⟨0, 1, 0⟩, ⟨-1, 0, 0⟩, 0,
          none, none⟩
        ⟨⟨0, 10, 0⟩, ⟨0, 0, 0⟩, ⟨5, 6, 7⟩, true⟩).position = ⟨5, 6, 7⟩ := by
  apply (grounded_takeoff_transition _ _).1
  rw [grounded_vertical_y _ _ _ _ 10 rfl rfl rfl rfl rfl
    (by norm_num : (0.001 : ℝ) < 10)]
  norm_num [GRAVITY]

theorem grounded_forward_formula (p : GroundedParams) (s : GroundedState)
    (hf : p.forward = ⟨1, 0, 0⟩) (hup : p.up = ⟨0, 1, 0⟩)
    (ha : p.cross_section_area = 0) (ht : p.current_thrust = 0)
    (hb : p.brake_on = false)
    (hspeed : 0.001 < s.velocity.length) :
    (grounded_step p s).velocity.x
      = s.velocity.x * (1 - 0.8 * p.dt / p.mass) := by
  have hlenpos : 0 < s.velocity.length := lt_trans (by norm_num) hspeed
  have hlenne : s.velocity.length ≠ 0 := ne_of_gt hlenpos
  have hstep : (grounded_step p s).velocity.x
      = (grounded_projected_velocity p s).x := by
    simp only [grounded_step]
    split_ifs <;> simp
  have hproj : (grounded_projected_velocity p s).x
      = (grounded_integrated_velocity p s).x := by
    simp only [grounded_projected_velocity, hf, V3.normalize_unit_x]
    unfold V3.dot
    simp
  have hint : (grounded_integrated_velocity p s).x
      = s.velocity.x + p.dt * ((1 / p.mass) *
          (-(s.velocity.length * 0.8) * ((1 / s.velocity.length) * s.velocity.x))) := by
    simp only [grounded_integrated_velocity, hf, hup, ha, ht, hb]
    simp only [drag_force_zero_area, if_pos hspeed, Bool.false_eq_true,
      if_false, V3.normalize]
    simp only [V3.add_x, V3.smul_x, V3.zero_x, lift_force_up_unit_x, V3.mk_x]
    ring
  have hcancel : -(s.velocity.length * 0.8) *
      ((1 / s.velocity.length) * s.velocity.x) = -(0.8 * s.velocity.x) := by
    field_simp
    ring
  rw [hstep, hproj, hint, hcancel]
  ring

/-- Claim C9 counterexample: with an explicit-Euler step whose
rolling-resistance decrement exceeds the current speed (mass 0.4 kg,
`dt = 1 s`, forward speed 1 m/s, zero thrust, brakes off), the forward
velocity reverses sign in a single grounded tick. -/
theorem grounded_rolling_reversal_counterexample :
    (0 : ℝ) < (V3.mk 1 0 0).x ∧
    (grounded_step
        ⟨1, 2/5, 8000, false, 0, ⟨1, 0, 0⟩, ⟨0, 1, 0⟩, ⟨-1, 0, 0⟩, 0,
          none, none⟩
        ⟨⟨1, 0, 0⟩, ⟨0, 0, 0⟩, ⟨0, 0, 0⟩, true⟩).velocity.x < 0 := by
  constructor
  · norm_num
  · rw [grounded_forward_formula _ _ rfl rfl rfl rfl rfl
      (by rw [V3.length_mk_x 1 (by norm_num)]; norm_num)]
    norm_num

/-- Claim C9 (amended): for a grounded vehicle with zero thrust, brake
inactive, zero drag area, level attitude and positive forward speed,
provided the per-tick rolling-resistance decrement does not exceed the
current speed (`0.8 · dt ≤ mass`), each grounded step multiplies the forward
velocity component by the factor `1 − 0.8·dt/mass ∈ [0, 1)`: the forward
speed never increases, never reverses sign, strictly decreases for `dt > 0`,
and the resulting geometric sequence of forward speeds across ticks tends to
zero. Without the step-size bound the forward velocity can reverse sign (see
the counterexample). -/
theorem grounded_rolling_deceleration (p : GroundedParams) (s : GroundedState)
    (hf : p.forward = ⟨1, 0, 0⟩) (hup : p.up = ⟨0, 1, 0⟩)
    (ha : p.cross_section_area = 0) (ht : p.current_thrust = 0)
    (hb : p.brake_on = false)
    (hspeed : 0.001 < s.velocity.length)
    (hm : 0 < p.mass) (hdt : 0 ≤ p.dt) (hstep : 0.8 * p.dt ≤ p.mass)
    (hvx : 0 < s.velocity.x) :
    (grounded_step p s).velocity.x
      = s.velocity.x * (1 - 0.8 * p.dt / p.mass) ∧
    0 ≤ (grounded_step p s).velocity.x ∧
    (grounded_step p s).velocity.x ≤ s.velocity.x ∧
    (0 < p.dt → (grounded_step p s).velocity.x < s.velocity.x) ∧
    (0 < p.dt →
      Filter.Tendsto
        (fun n : ℕ => s.velocity.x * (1 - 0.8 * p.dt / p.mass) ^ n)
        Filter.atTop (nhds 0)) := by
  have hx := grounded_forward_formula p s hf hup ha ht hb hspeed
  have hc0 : 0 ≤ 0.8 * p.dt / p.mass := by positivity
  have hc1 : 0.8 * p.dt / p.mass ≤ 1 := (div_le_one hm).2 hstep
  refine ⟨hx, ?_, ?_, ?_, ?_⟩
  · rw [hx]
    exact mul_nonneg hvx.le (by linarith)
  · rw [hx]
    nlinarith
  · intro hdtpos
    have hcpos : 0 < 0.8 * p.dt / p.mass := div_pos (by linarith) hm
    rw [hx]
    nlinarith
  · intro hdtpos
    have hcpos : 0 < 0.8 * p.dt / p.mass := div_pos (by linarith) hm
    have h1 : 0 ≤ 1 - 0.8 * p.dt / p.mass := by linarith
    have h2 : 1 - 0.8 * p.dt / p.mass < 1 := by linarith
    have h3 := tendsto_pow_atTop_nhds_zero_of_lt_one h1 h2
    simpa using h3.const_mul s.velocity.x

/-- Witness for `grounded_rolling_deceleration`: a 1000 kg vehicle rolling
at 10 m/s with `dt = 1/100 s` does not speed up. -/
theorem grounded_rolling_deceleration_witness :
    (grounded_step
        ⟨1/100, 1000, 8000, false, 0, ⟨1, 0, 0⟩, ⟨0, 1, 0⟩, ⟨-1, 0, 0⟩, 0,
          none, none⟩
        ⟨⟨10, 0, 0⟩, ⟨0, 0, 0⟩, ⟨0, 0, 0⟩, true⟩).velocity.x ≤ 10 :=
  (grounded_rolling_deceleration _ _ rfl rfl rfl rfl rfl
    (by rw [V3.length_mk_x 10 (by norm_num)]; norm_num)
    (by norm_num) (by norm_num) (by norm_num) (by norm_num)).2.2.1

/-! ## Claims C8 and C10 — GeoGrid samplers -/

theorem sorted_getD_lt (xs : List ℚ) (hs : List.Sorted (· < ·) xs)
    {i j : ℕ} (hij : i < j) (hj : j < xs.length) :
    xs.getD i 0 < xs.getD j 0 := by
  have hi : i < xs.length := lt_trans hij hj
  rw [List.getD_eq_getElem xs 0 hi, List.getD_eq_getElem xs 0 hj]
  exact List.Sorted.rel_get_of_lt hs hij

theorem bsearch_aux_spec (xs : List ℚ) (t : ℚ)
    (mono : ∀ i j : ℕ, i < j → j < xs.length → xs.getD i 0 < xs.getD j 0) :
    ∀ (fuel left right : ℕ), right ≤ xs.length → left ≤ right →
      right - left < fuel →
      (∀ j, j < left → xs.getD j 0 < t) →
      (∀ j, right ≤ j → j < xs.length → t < xs.getD j 0) →
      (∀ i, bsearch_aux xs t fuel left right = .found i →
        i < xs.length ∧ xs.getD i 0 = t) ∧
      (∀ i, bsearch_aux xs t fuel left right = .notFound i →
        i ≤ xs.length ∧ (∀ j, j < i → xs.getD j 0 < t) ∧
        (∀ j, i ≤ j → j < xs.length → t < xs.getD j 0)) := by
  intro fuel
  induction fuel with
  | zero =>
    intro left right hrn hlr hfuel hbelow habove
    omega
  | succ fuel ih =>
    intro left right hrn hlr hfuel hbelow habove
    rw [bsearch_aux]
    by_cases hlt : left < right
    · rw [if_pos hlt]
      have hmidlt : left + (right - left) / 2 < right := by omega
      have hmidn : left + (right - left) / 2 < xs.length :=
        lt_of_lt_of_le hmidlt hrn
      by_cases hx : xs.getD (left + (right - left) / 2) 0 < t
      · rw [if_pos hx]
        apply ih (left + (right - left) / 2 + 1) right hrn (by omega)
          (by omega) ?_ habove
        intro j hj
        rcases Nat.lt_or_ge j (left + (right - left) / 2) with hjm | hjm
        · exact lt_trans (mono j (left + (right - left) / 2) hjm hmidn) hx
        · have hje : j = left + (right - left) / 2 := by omega
          rw [hje]
          exact hx
      · rw [if_neg hx]
        by_cases hx2 : t < xs.getD (left + (right - left) / 2) 0
        · rw [if_pos hx2]
          apply ih left (left + (right - left) / 2) hmidn.le (by omega)
            (by omega) hbelow ?_
          intro j hj hjn
          rcases Nat.lt_or_ge (left + (right - left) / 2) j with hmj | hmj
          · exact lt_trans hx2 (mono (left + (right - left) / 2) j hmj hjn)
          · have hje : j = left + (right - left) / 2 := by omega
            rw [hje]
            exact hx2
        · rw [if_neg hx2]
          constructor
          · intro i hi
            injection hi with h
            subst h
            exact ⟨hmidn, le_antisymm (not_lt.1 hx2) (not_lt.1 hx)⟩
          · intro i hi
            exact absurd hi (by simp)
    · rw [if_neg hlt]
      have hl : left = right := le_antisymm hlr (not_lt.1 hlt)
      constructor
      · intro i hi
        exact absurd hi (by simp)
      · intro i hi
        injection hi with h
        subst h
        exact ⟨by omega, hbelow, fun j hj hjn => habove j (by omega) hjn⟩

theorem binary_search_spec (xs : List ℚ) (t : ℚ)
    (mono : ∀ i j : ℕ, i < j → j < xs.length → xs.getD i 0 < xs.getD j 0) :
    (∀ i, binary_search xs t = .found i →
      i < xs.length ∧ xs.getD i 0 = t) ∧
    (∀ i, binary_search xs t = .notFound i → i ≤ xs.length ∧
      (∀ j, j < i → xs.getD j 0 < t) ∧
      (∀ j, i ≤ j → j < xs.length → t < xs.getD j 0)) := by
  have h := bsearch_aux_spec xs t mono (xs.length + 1) 0 xs.length le_rfl
    (Nat.zero_le _) (by omega) (fun j hj => absurd hj (Nat.not_lt_zero j))
    (fun j hj hjn => absurd (lt_of_le_of_lt hj hjn) (lt_irrefl xs.length))
  exact h

theorem rust_clamp_mem (x lo hi : ℚ) (h : lo ≤ hi) :
    lo ≤ rust_clamp x lo hi ∧ rust_clamp x lo hi ≤ hi := by
  unfold rust_clamp
  split_ifs with h1 h2
  · exact ⟨le_rfl, h⟩
  · exact ⟨h, le_rfl⟩
  · exact ⟨not_lt.1 h1, not_lt.1 h2⟩

theorem axis_cell_bounds (axis : List ℚ) (x : ℚ)
    (mono : ∀ i j : ℕ, i < j → j < axis.length →
      axis.getD i 0 < axis.getD j 0)
    (h2 : 2 ≤ axis.length) :
    (axis_cell axis x).1 + 1 < axis.length ∧
    axis.getD (axis_cell axis x).1 0 ≤
      rust_clamp x (axis.getD 0 0) (axis.getD (axis.length - 1) 0) ∧
    rust_clamp x (axis.getD 0 0) (axis.getD (axis.length - 1) 0) ≤
      axis.getD ((axis_cell axis x).1 + 1) 0 ∧
    0 ≤ (axis_cell axis x).2 ∧ (axis_cell axis x).2 ≤ 1 := by
  have hn : 0 < axis.length := by omega
  have hlohi : axis.getD 0 0 ≤ axis.getD (axis.length - 1) 0 :=
    (mono 0 (axis.length - 1) (by omega) (by omega)).le
  obtain ⟨hclo, hchi⟩ := rust_clamp_mem x _ _ hlohi
  set xc := rust_clamp x (axis.getD 0 0) (axis.getD (axis.length - 1) 0)
    with hxc
  have hspec := binary_search_spec axis xc mono
  -- first establish the cell-index bracketing
  have hkey : (cell_index axis xc) + 1 < axis.length ∧
      axis.getD (cell_index axis xc) 0 ≤ xc ∧
      xc ≤ axis.getD (cell_index axis xc + 1) 0 := by
    cases hbs : binary_search axis xc with
    | found i =>
      have hci : cell_index axis xc = min i (axis.length - 2) := by
        unfold cell_index
        rw [hbs]
      obtain ⟨hin, heq⟩ := hspec.1 i hbs
      rw [hci]
      rcases Nat.lt_or_ge i (axis.length - 1) with hi | hi
      · -- idx = i (min picks i since i ≤ n - 2)
        have hmin : min i (axis.length - 2) = i := min_eq_left (by omega)
        rw [hmin]
        refine ⟨by omega, le_of_eq heq, ?_⟩
        rw [← heq]
        exact (mono i (i + 1) (by omega) (by omega)).le
      · -- i = n - 1, idx = n - 2
        have hie : i = axis.length - 1 := by omega
        have hmin : min i (axis.length - 2) = axis.length - 2 :=
          min_eq_right (by omega)
        rw [hmin]
        have hidx1 : axis.length - 2 + 1 = axis.length - 1 := by omega
        refine ⟨by omega, ?_, ?_⟩
        · calc axis.getD (axis.length - 2) 0
              ≤ axis.getD (axis.length - 1) 0 :=
                (mono (axis.length - 2) (axis.length - 1) (by omega)
                  (by omega)).le
            _ = xc := by rw [← hie, heq]
        · rw [hidx1, ← hie, heq]
    | notFound i =>
      have hci : cell_index axis xc = min (i - 1) (axis.length - 2) := by
        unfold cell_index
        rw [hbs]
      obtain ⟨hin, hbelow, habove⟩ := hspec.2 i hbs
      rw [hci]
      have hi1 : 1 ≤ i := by
        by_contra h0
        have : i = 0 := by omega
        subst this
        exact absurd (habove 0 le_rfl (by omega)) (not_lt.2 hclo)
      have hin' : i ≤ axis.length - 1 := by
        by_contra hgt
        have hie : i = axis.length := by omega
        have := hbelow (axis.length - 1) (by omega)
        exact absurd this (not_lt.2 hchi)
      have hmin : min (i - 1) (axis.length - 2) = i - 1 :=
        min_eq_left (by omega)
      rw [hmin]
      have hi1e : i - 1 + 1 = i := by omega
      refine ⟨by omega, (hbelow (i - 1) (by omega)).le, ?_⟩
      rw [hi1e]
      rcases Nat.lt_or_ge i axis.length with hlt | hge
      · exact (habove i le_rfl hlt).le
      · -- i = axis.length is impossible: shown above since i ≤ n - 1 < n
        omega
    -- end cases
  obtain ⟨hidx, hx0, hx1⟩ := hkey
  have haxc1 : (axis_cell axis x).1 = cell_index axis xc := rfl
  have haxc2 : (axis_cell axis x).2 =
      (xc - axis.getD (cell_index axis xc) 0) /
        max |axis.getD (cell_index axis xc + 1) 0 -
          axis.getD (cell_index axis xc) 0| EPS32 := rfl
  have hgap : axis.getD (cell_index axis xc) 0 <
      axis.getD (cell_index axis xc + 1) 0 :=
    mono _ _ (by omega) hidx
  have hd1 : axis.getD (cell_index axis xc + 1) 0 -
      axis.getD (cell_index axis xc) 0 ≤
      max |axis.getD (cell_index axis xc + 1) 0 -
        axis.getD (cell_index axis xc) 0| EPS32 :=
    le_trans (le_abs_self _) (le_max_left _ _)
  have hdpos : 0 < max |axis.getD (cell_index axis xc + 1) 0 -
      axis.getD (cell_index axis xc) 0| EPS32 :=
    lt_of_lt_of_le (by norm_num [EPS32]) (le_max_right _ _)
  refine ⟨haxc1 ▸ hidx, haxc1 ▸ hx0, haxc1 ▸ hx1, ?_, ?_⟩
  · rw [haxc2]
    exact div_nonneg (by linarith) hdpos.le
  · rw [haxc2, div_le_one hdpos]
    linarith

theorem convex_combination_bounds (a b t : ℚ) (h0 : 0 ≤ t) (h1 : t ≤ 1) :
    min a b ≤ a * (1 - t) + b * t ∧ a * (1 - t) + b * t ≤ max a b := by
  constructor
  · rcases le_total a b with h | h
    · rw [min_eq_left h]
      nlinarith
    · rw [min_eq_right h]
      nlinarith
  · rcases le_total a b with h | h
    · rw [max_eq_right h]
      nlinarith
    · rw [max_eq_left h]
      nlinarith

/-- Claim C10: on a valid grid (strictly increasing axes with at least two
points each, matching data size), `find` succeeds, its interpolation weights
lie in `[0, 1]`, and the interpolated value stays between the minimum and
maximum of the four corner values of the selected cell. -/
theorem find_bilinear_bounds (lat lon : ℚ) (lats lons data : List ℚ)
    (hslat : List.Sorted (· < ·) lats) (hslon : List.Sorted (· < ·) lons)
    (hlat2 : 2 ≤ lats.length) (hlon2 : 2 ≤ lons.length)
    (hdata : data.length = lats.length * lons.length) :
    (0 ≤ (axis_cell lats lat).2 ∧ (axis_cell lats lat).2 ≤ 1) ∧
    (0 ≤ (axis_cell lons lon).2 ∧ (axis_cell lons lon).2 ≤ 1) ∧
    ∃ v, find lat lon lats lons data = .ok v ∧
      min (min (cell_corners lat lon lats lons data).1
            (cell_corners lat lon lats lons data).2.1)
          (min (cell_corners lat lon lats lons data).2.2.1
            (cell_corners lat lon lats lons data).2.2.2) ≤ v ∧
      v ≤ max (max (cell_corners lat lon lats lons data).1
            (cell_corners lat lon lats lons data).2.1)
          (max (cell_corners lat lon lats lons data).2.2.1
            (cell_corners lat lon lats lons data).2.2.2) := by
  have hmlat : ∀ i j : ℕ, i < j → j < lats.length →
      lats.getD i 0 < lats.getD j 0 := fun i j hij hj =>
    sorted_getD_lt lats hslat hij hj
  have hmlon : ∀ i j : ℕ, i < j → j < lons.length →
      lons.getD i 0 < lons.getD j 0 := fun i j hij hj =>
    sorted_getD_lt lons hslon hij hj
  obtain ⟨-, -, -, ht0, ht1⟩ := axis_cell_bounds lats lat hmlat hlat2
  obtain ⟨-, -, -, hu0, hu1⟩ := axis_cell_bounds lons lon hmlon hlon2
  refine ⟨⟨ht0, ht1⟩, ⟨hu0, hu1⟩, ?_⟩
  have hfind : find lat lon lats lons data =
      .ok (((cell_corners lat lon lats lons data).1 *
              (1 - (axis_cell lats lat).2) +
            (cell_corners lat lon lats lons data).2.1 *
              (axis_cell lats lat).2) *
            (1 - (axis_cell lons lon).2) +
          ((cell_corners lat lon lats lons data).2.2.1 *
              (1 - (axis_cell lats lat).2) +
            (cell_corners lat lon lats lons data).2.2.2 *
              (axis_cell lats lat).2) *
            (axis_cell lons lon).2) := by
    unfold find cell_corners
    rw [if_neg (by omega), if_neg (by omega)]
  refine ⟨_, hfind, ?_, ?_⟩
  · have h0 := convex_combination_bounds
      (cell_corners lat lon lats lons data).1
      (cell_corners lat lon lats lons data).2.1
      (axis_cell lats lat).2 ht0 ht1
    have h1 := convex_combination_bounds
      (cell_corners lat lon lats lons data).2.2.1
      (cell_corners lat lon lats lons data).2.2.2
      (axis_cell lats lat).2 ht0 ht1
    have hu := convex_combination_bounds
      ((cell_corners lat lon lats lons data).1 *
          (1 - (axis_cell lats lat).2) +
        (cell_corners lat lon lats lons data).2.1 * (axis_cell lats lat).2)
      ((cell_corners lat lon lats lons data).2.2.1 *
          (1 - (axis_cell lats lat).2) +
        (cell_corners lat lon lats lons data).2.2.2 * (axis_cell lats lat).2)
      (axis_cell lons lon).2 hu0 hu1
    calc min (min (cell_corners lat lon lats lons data).1
            (cell_corners lat lon lats lons data).2.1)
          (min (cell_corners lat lon lats lons data).2.2.1
            (cell_corners lat lon lats lons data).2.2.2)
        ≤ min ((cell_corners lat lon lats lons data).1 *
              (1 - (axis_cell lats lat).2) +
            (cell_corners lat lon lats lons data).2.1 *
              (axis_cell lats lat).2)
          ((cell_corners lat lon lats lons data).2.2.1 *
              (1 - (axis_cell lats lat).2) +
            (cell_corners lat lon lats lons data).2.2.2 *
              (axis_cell lats lat).2) := by
          exact le_min ((min_le_left _ _).trans h0.1)
            ((min_le_right _ _).trans h1.1)
      _ ≤ _ := hu.1
  · have h0 := convex_combination_bounds
      (cell_corners lat lon lats lons data).1
      (cell_corners lat lon lats lons data).2.1
      (axis_cell lats lat).2 ht0 ht1
    have h1 := convex_combination_bounds
      (cell_corners lat lon lats lons data).2.2.1
      (cell_corners lat lon lats lons data).2.2.2
      (axis_cell lats lat).2 ht0 ht1
    have hu := convex_combination_bounds
      ((cell_corners lat lon lats lons data).1 *
          (1 - (axis_cell lats lat).2) +
        (cell_corners lat lon lats lons data).2.1 * (axis_cell lats lat).2)
      ((cell_corners lat lon lats lons data).2.2.1 *
          (1 - (axis_cell lats lat).2) +
        (cell_corners lat lon lats lons data).2.2.2 * (axis_cell lats lat).2)
      (axis_cell lons lon).2 hu0 hu1
    calc (((cell_corners lat lon lats lons data).1 *
              (1 - (axis_cell lats lat).2) +
            (cell_corners lat lon lats lons data).2.1 *
              (axis_cell lats lat).2) *
            (1 - (axis_cell lons lon).2) +
          ((cell_corners lat lon lats lons data).2.2.1 *
              (1 - (axis_cell lats lat).2) +
            (cell_corners lat lon lats lons data).2.2.2 *
              (axis_cell lats lat).2) *
            (axis_cell lons lon).2)
        ≤ max ((cell_corners lat lon lats lons data).1 *
              (1 - (axis_cell lats lat).2) +
            (cell_corners lat lon lats lons data).2.1 *
              (axis_cell lats lat).2)
          ((cell_corners lat lon lats lons data).2.2.1 *
              (1 - (axis_cell lats lat).2) +
            (cell_corners lat lon lats lons data).2.2.2 *
              (axis_cell lats lat).2) := hu.2
      _ ≤ _ := max_le (h0.2.trans (le_max_left _ _))
          (h1.2.trans (le_max_right _ _))

/-- Witness for `find_bilinear_bounds` on the spec's 2×2 grid sampled at
the center. -/
theorem find_bilinear_bounds_witness :
    0 ≤ (axis_cell [(0 : ℚ), 1] (1/2)).2 ∧ (axis_cell [(0 : ℚ), 1] (1/2)).2 ≤ 1 :=
  (find_bilinear_bounds (1/2) (1/2) [0, 1] [0, 1] [10, 30, 20, 40]
    (by norm_num [List.sorted_cons]) (by norm_num [List.sorted_cons])
    (by norm_num) (by norm_num) (by norm_num)).1

/-- Claim C8 (amended): the bilinear sampler `find` fails exactly when an
axis has fewer than 2 points or the data size mismatches, but the
categorical nearest-neighbor variant `find_nearest_land_cover` fails exactly
when an axis is empty or the data size mismatches — it accepts single-point
axes, so the "fewer than 2 points" failure condition does not extend to it. -/
theorem sampler_failure_conditions :
    (∀ (lat lon : ℚ) (lats lons data : List ℚ),
      find lat lon lats lons data = .error () ↔
        lats.length < 2 ∨ lons.length < 2 ∨
          data.length ≠ lats.length * lons.length) ∧
    (∀ (lat lon : ℚ) (lats lons : List ℚ) (data : List ℤ),
      find_nearest_land_cover lat lon lats lons data = .error () ↔
        lats.length = 0 ∨ lons.length = 0 ∨
          data.length ≠ lats.length * lons.length) := by
  constructor
  · intro lat lon lats lons data
    unfold find
    split_ifs with h1 h2
    · exact iff_of_true rfl (by tauto)
    · exact iff_of_true rfl (Or.inr (Or.inr h2))
    · refine iff_of_false (by simp) ?_
      push_neg at h1
      simp only [not_or]
      exact ⟨by omega, by omega, h2⟩
  · intro lat lon lats lons data
    unfold find_nearest_land_cover
    split_ifs with h
    · exact iff_of_true rfl h
    · exact iff_of_false (by simp) h

/-- Witness for `sampler_failure_conditions`: a 1×1 grid makes the bilinear
sampler fail. -/
theorem sampler_failure_conditions_witness :
    find 0 0 [(0 : ℚ)] [(0 : ℚ)] [7] = .error () :=
  (sampler_failure_conditions.1 0 0 [0] [0] [7]).mpr (Or.inl (by norm_num))

/-- Claim C8 counterexample: on a 1×1 grid (an axis with fewer than 2
points), the categorical sampler returns a value instead of failing. -/
theorem nearest_single_point_counterexample :
    ([(0 : ℚ)].length < 2) ∧
    find_nearest_land_cover 0 0 [0] [0] [7] = .ok 7 := by
  constructor
  · norm_num
  · rfl
